import Mathlib

/-!
# The fly-token debug handler (`main.go`)

A shallow embedding of `DebugStruct`, `FlyValidator`, `FlyDebug` and the HTTP
handler that `FlyDebug` returns, followed by theorems about them.

Modelling conventions.

* The external collaborators (token source, signed-token parser, claims
  decoder, OIDC validator, claim extractor) are inputs of the model: each is a
  value or a function giving the outcome of the corresponding call.
* A Go `string` is its sequence of bytes, which need not be valid UTF-8.
* A Go `error` is represented by its message (`err.Error()`); a call returning
  `(x, err)` whose `x` is read only when `err == nil` is an `Except GoString _`.
  `tokenSource.Token()` is the exception: the handler reads the returned pointer
  and the returned error independently, so it is a pair of options.
* Go pointers and interface values that may be `nil` are `Option`s; reading a
  field through a nil pointer, or calling a method on a nil interface value, is
  a run-time panic, recorded as a `Fault`.
* The variable `err` of `FlyDebug` is shared by all invocations of the handler.
  What other invocations write to it between the accesses of one invocation is
  an input of the model (`Interference`).
* `json.Marshal` is modelled down to the members of the object it writes; the
  encodings of the three struct types declared in imported packages are inputs
  (`Encoders`), each of which may fail.
* `slog` calls only write to the process log and are not part of the model.
-/

namespace FlyDebugModel

/-! ## Go strings -/

/-- A Go `string`: a sequence of bytes, not necessarily valid UTF-8. -/
abbrev GoString := List Nat

/-- The UTF-8 encoding of one character. -/
def encodeChar (c : Char) : List Nat :=
  let n := c.toNat
  if n < 0x80 then [n]
  else if n < 0x800 then [0xC0 + n / 0x40, 0x80 + n % 0x40]
  else if n < 0x10000 then [0xE0 + n / 0x1000, 0x80 + n / 0x40 % 0x40, 0x80 + n % 0x40]
  else [0xF0 + n / 0x40000, 0x80 + n / 0x1000 % 0x40, 0x80 + n / 0x40 % 0x40, 0x80 + n % 0x40]

/-- The Go string whose text is `s` (Go source and Go string literals are UTF-8). -/
def utf8 (s : String) : GoString := s.data.flatMap encodeChar

/-- The width that `utf8.DecodeRuneInString` returns on the string `b0 :: bs` when
it decodes a rune (1 to 4), and 0 when it returns `(RuneError, 1)`: the first byte
selects the size and the range accepted for the second byte, the remaining bytes
must be continuation bytes, and a string that ends too early is an error. -/
def runeLen (b0 : Nat) (bs : List Nat) : Nat :=
  if b0 < 0x80 then 1
  else if b0 < 0xC2 then 0
  else if b0 < 0xE0 then
    match bs with
    | b1 :: _ => if 0x80 ≤ b1 ∧ b1 ≤ 0xBF then 2 else 0
    | _ => 0
  else if b0 < 0xF0 then
    match bs with
    | b1 :: b2 :: _ =>
      if (if b0 = 0xE0 then 0xA0 else 0x80) ≤ b1 ∧ b1 ≤ (if b0 = 0xED then 0x9F else 0xBF) ∧
          0x80 ≤ b2 ∧ b2 ≤ 0xBF then 3 else 0
    | _ => 0
  else if b0 < 0xF5 then
    match bs with
    | b1 :: b2 :: b3 :: _ =>
      if (if b0 = 0xF0 then 0x90 else 0x80) ≤ b1 ∧ b1 ≤ (if b0 = 0xF4 then 0x8F else 0xBF) ∧
          0x80 ≤ b2 ∧ b2 ≤ 0xBF ∧ 0x80 ≤ b3 ∧ b3 ≤ 0xBF then 4 else 0
    | _ => 0
  else 0

/-- The string an `encoding/json` string encoder denotes, scanning from a point
where `k` bytes of an already decoded rune remain: a decoded rune is copied, and
every byte at which decoding fails becomes U+FFFD (bytes EF BF BD). -/
def coerceFrom : Nat → GoString → GoString
  | _, [] => []
  | k + 1, b :: bs => b :: coerceFrom k bs
  | 0, b :: bs =>
    match runeLen b bs with
    | 0 => [0xEF, 0xBF, 0xBD] ++ coerceFrom 0 bs
    | k + 1 => b :: coerceFrom k bs

/-- The string that the JSON text written for the Go string `s` denotes: `s` with
each invalid UTF-8 byte replaced by U+FFFD. A string is valid UTF-8 exactly
when this leaves it unchanged. -/
def toValidUTF8 (s : GoString) : GoString := coerceFrom 0 s

/-- The text `fmt` prints for the operand of the verb `%w`: the message of the
error, and `%!w(<nil>)` when the operand is nil. -/
def fmtW (err : Option GoString) : GoString :=
  match err with
  | some e => e
  | none => utf8 "%!w(<nil>)"

/-! ## Data model -/

/-- The two fields of `oauth2.Token` that the handler reads. -/
structure Token (T : Type) where
  AccessToken : GoString
  Expiry : T
deriving DecidableEq, Repr

/-- The struct `DebugStruct` of main.go (lines 20 to 27). `DecodedToken` is an
`interface{}` (nil is `none`); `Errors` is a slice; `RegisteredClaims`, `Claims`
and `Expiry` are the struct types `validator.RegisteredClaims`, `jwt2.Claims` and
`time.Time`, taken as type parameters. -/
structure DebugStruct (RC CL T : Type) where
  DecodedToken : Option GoString
  Errors : List GoString
  RegisteredClaims : RC
  Claims : CL
  AccessToken : GoString
  Expiry : T
deriving DecidableEq, Repr

/-- The zero value `DebugStruct{}` (line 59): every field at the zero value of
its type, `default` standing for the zero value of the three struct types. -/
def DebugStruct.zero {RC CL T : Type} [Inhabited RC] [Inhabited CL] [Inhabited T] :
    DebugStruct RC CL T :=
  { DecodedToken := none, Errors := [], RegisteredClaims := default, Claims := default,
    AccessToken := [], Expiry := default }

/-! ## JSON encoding of a `DebugStruct` -/

/-- A field value of `DebugStruct` as `encoding/json` sees it through reflection:
one constructor per field type, grouped by `reflect.Kind`. -/
inductive GoValue (RC CL T : Type) where
  /-- Kind `Interface`: the field `DecodedToken interface{}`. -/
  | Interface (x : Option GoString)
  /-- Kind `Slice`: the field `Errors []string`. -/
  | Slice (xs : List GoString)
  /-- Kind `String`: the field `AccessToken string`. -/
  | String (s : GoString)
  /-- Kind `Struct`: the field `RegisteredClaims validator.RegisteredClaims`. -/
  | RegisteredClaims (rc : RC)
  /-- Kind `Struct`: the field `Claims jwt2.Claims`. -/
  | Claims (c : CL)
  /-- Kind `Struct`: the field `Expiry time.Time`. -/
  | Time (t : T)
deriving DecidableEq, Repr

/-- The function `isEmptyValue` of `encoding/json`, which decides `omitempty`:
arrays, maps, slices and strings are empty when their length is 0, booleans,
numbers, interfaces and pointers when they are zero, and every other kind, in
particular `Struct`, is never empty. -/
def isEmptyValue {RC CL T : Type} : GoValue RC CL T → Bool
  | .Interface x => x.isNone
  | .Slice xs => xs.length == 0
  | .String s => s.length == 0
  | .RegisteredClaims _ => false
  | .Claims _ => false
  | .Time _ => false

/-- The fields of a `DebugStruct` in declaration order, under their JSON names.
Every tag is the bare option omitempty, so the JSON name is the Go field name. -/
def DebugStruct.fields {RC CL T : Type} (o : DebugStruct RC CL T) :
    List (String × GoValue RC CL T) :=
  [ ("DecodedToken", .Interface o.DecodedToken),
    ("Errors", .Slice o.Errors),
    ("RegisteredClaims", .RegisteredClaims o.RegisteredClaims),
    ("Claims", .Claims o.Claims),
    ("AccessToken", .String o.AccessToken),
    ("Expiry", .Time o.Expiry) ]

/-- The fields that omitempty keeps. -/
def DebugStruct.kept {RC CL T : Type} (o : DebugStruct RC CL T) :
    List (String × GoValue RC CL T) :=
  o.fields.filter (fun f => !isEmptyValue f.2)

/-- The value of a member of the JSON object written for a `DebugStruct`. `J` is
the type of the encodings of the three struct types. -/
inductive JSONValue (J : Type) where
  /-- The literal `null`. -/
  | Null
  /-- A JSON string, by the string it denotes. -/
  | String (s : GoString)
  /-- A JSON array of strings. -/
  | Strings (xs : List GoString)
  /-- The encoding of a value of one of the three struct types. -/
  | Encoded (j : J)
deriving DecidableEq, Repr

/-- The encodings of the three struct types, which are declared in imported
packages: what `json.Marshal` produces for a value of the type, `none` when it
returns an error. `time.Time` has a `MarshalJSON` method, which fails when the
year is outside 0 to 9999. -/
structure Encoders (RC CL T J : Type) where
  RegisteredClaims : RC → Option J
  Claims : CL → Option J
  Time : T → Option J

/-- The encoding of one field value; a string is written as valid UTF-8. -/
def encodeValue {RC CL T J : Type} (enc : Encoders RC CL T J) :
    GoValue RC CL T → Option (JSONValue J)
  | .Interface none => some .Null
  | .Interface (some s) => some (.String (toValidUTF8 s))
  | .Slice xs => some (.Strings (xs.map toValidUTF8))
  | .String s => some (.String (toValidUTF8 s))
  | .RegisteredClaims rc => (enc.RegisteredClaims rc).map .Encoded
  | .Claims c => (enc.Claims c).map .Encoded
  | .Time t => (enc.Time t).map .Encoded

/-- The encoding of a list of fields, in order; the first error aborts it. -/
def encodeFields {RC CL T J : Type} (enc : Encoders RC CL T J) :
    List (String × GoValue RC CL T) → Option (List (String × JSONValue J))
  | [] => some []
  | f :: fs =>
    match encodeValue enc f.2 with
    | none => none
    | some j =>
      match encodeFields enc fs with
      | none => none
      | some js => some ((f.1, j) :: js)

/-- The call `json.Marshal(o)` (line 102): the members of the JSON object it
returns, each kept field in order, or `none` when it returns an error (and no
bytes). -/
def Marshal {RC CL T J : Type} (enc : Encoders RC CL T J) (o : DebugStruct RC CL T) :
    Option (List (String × JSONValue J)) :=
  encodeFields enc o.kept

/-! ## HTTP response writer -/

/-- What an `http.ResponseWriter` has received: the header map, the status line
once written, and the body as the JSON objects written so far. -/
structure ResponseWriter (J : Type) where
  Header : List (String × String)
  Status : Option Nat
  Body : List (List (String × JSONValue J))
deriving DecidableEq, Repr

/-- The writer that the server hands to a handler: nothing written yet. -/
def ResponseWriter.fresh {J : Type} : ResponseWriter J :=
  { Header := [], Status := none, Body := [] }

/-- The call `w.Header().Set(k, v)`: replaces any value stored under `k`. -/
def ResponseWriter.HeaderSet {J : Type} (w : ResponseWriter J) (k v : String) :
    ResponseWriter J :=
  { w with Header := w.Header.filter (fun p => p.1 != k) ++ [(k, v)] }

/-- The call `w.WriteHeader(code)`: the first call fixes the status. -/
def ResponseWriter.WriteHeader {J : Type} (w : ResponseWriter J) (code : Nat) :
    ResponseWriter J :=
  match w.Status with
  | none => { w with Status := some code }
  | some _ => w

/-- The call `w.Write(b)`: writes status 200 first if no status was written, then
appends the bytes; `none` is the nil slice that a failed `json.Marshal` leaves,
which adds nothing to the body. -/
def ResponseWriter.Write {J : Type} (w : ResponseWriter J)
    (b : Option (List (String × JSONValue J))) : ResponseWriter J :=
  { w with
    Status := some (w.Status.getD 200),
    Body :=
      match b with
      | some members => w.Body ++ [members]
      | none => w.Body }

/-- The constant `http.StatusOK`. -/
def StatusOK : Nat := 200

/-! ## Collaborators and closure state -/

/-- One entry of the validator configuration (`oidc.ValidatorConfig`). -/
structure ValidatorConfig where
  URL : String
  Audiences : List String
deriving DecidableEq, Repr

/-- The method `ValidateToken(ctx, tokenString)` of a non-nil `jwt.TokenValidator`. -/
abbrev Validator (Ctx VR : Type) := Ctx → GoString → Except GoString VR

/-- The part of `*http.Request` the handler uses: `r.Context()`. -/
structure Request (Ctx : Type) where
  Context : Ctx

/-- Outcomes of the library calls made while serving one request. -/
structure Collaborators (JWT VR RC CL T : Type) where
  /-- The pair returned by `flyio.NewTokenSource().Token()`. -/
  Token : Option (Token T) × Option GoString
  /-- The function `jwt2.ParseSigned`. -/
  ParseSigned : GoString → Except GoString JWT
  /-- The method `UnsafeClaimsWithoutVerification`, filling a zero `jwt2.Claims`. -/
  UnsafeClaimsWithoutVerification : JWT → Except GoString CL
  /-- The function `oidc.ExtractClaims` (the custom claims it returns are discarded). -/
  ExtractClaims : VR → Except GoString RC

/-- The variables of `FlyDebug` captured by the handler closure: `v` and `err`
of line 50. `jwt.TokenValidator` is an interface type; `none` is its nil value. -/
structure Captured (Ctx VR : Type) where
  v : Option (Validator Ctx VR)
  err : Option GoString

/-- What other invocations of the handler do to the shared variable `err` while
one invocation runs: the last value another invocation assigns (its own line 61)
between this invocation's assignment of line 61 and its test of line 66, and
between that test and the read of line 68; `none` when there is no such
assignment. -/
structure Interference where
  beforeCheck : Option (Option GoString)
  beforeFormat : Option (Option GoString)
deriving DecidableEq, Repr

/-- No other invocation touches `err`: the handler runs alone. -/
def Interference.quiet : Interference := { beforeCheck := none, beforeFormat := none }

/-- A run-time panic of the handler. -/
inductive Fault where
  /-- Field read through a nil `*oauth2.Token` (line 63). -/
  | nilToken
  /-- Method call on a nil `jwt.TokenValidator` (line 87). -/
  | nilValidator
deriving DecidableEq, Repr

/-- The locals of the handler after line 69. -/
structure Locals (RC CL T : Type) where
  token : Option (Token T)
  o : DebugStruct RC CL T

/-- What one invocation of the handler leaves behind: the captured variables, the
local `o` (at the panic, or as handed to `json.Marshal`), the response writer,
and the panic if the handler did not return. -/
structure Run (Ctx VR RC CL T J : Type) where
  captured : Captured Ctx VR
  o : DebugStruct RC CL T
  w : ResponseWriter J
  fault : Option Fault

/-! ## The program -/

/-- The configuration literal of `FlyValidator` (lines 30 to 37). -/
def config : List ValidatorConfig :=
  [ { URL := "https://oidc.fly.io/pat-downey", Audiences := ["https://fly.io/pat-downey"] } ]

/-- The function `FlyValidator` (lines 29 to 47); `NewMultiValidatorFromConfig` is
the library constructor. -/
def FlyValidator {Ctx VR : Type}
    (NewMultiValidatorFromConfig : List ValidatorConfig → Except GoString (Validator Ctx VR)) :
    Option (Validator Ctx VR) × Option GoString :=
  match NewMultiValidatorFromConfig config with
  | .error e => (none, some (utf8 "error creating validator: " ++ e))
  | .ok v => (some v, none)

/-- The function `FlyDebug` up to its `return` (lines 50 to 53): the variables the
returned closure captures. A construction error is only logged. -/
def FlyDebug {Ctx VR : Type}
    (NewMultiValidatorFromConfig : List ValidatorConfig → Except GoString (Validator Ctx VR)) :
    Captured Ctx VR :=
  let (v, err) := FlyValidator NewMultiValidatorFromConfig
  { v := v, err := err }

section Handler
variable {Ctx JWT VR RC CL T J : Type} [Inhabited RC] [Inhabited CL] [Inhabited T]

/-- Lines 56 to 69 of the handler. Line 61 assigns the token and the captured
`err`; lines 63 and 64 read the token through the pointer; line 66 tests the
captured `err` and line 68 reads it again to format the fetch error. Between
these accesses another invocation may have assigned `err`. -/
def fetchToken (c : Captured Ctx VR) (env : Collaborators JWT VR RC CL T) (i : Interference) :
    Captured Ctx VR × Except (Fault × DebugStruct RC CL T) (Locals RC CL T) :=
  let o : DebugStruct RC CL T := DebugStruct.zero
  let token := env.Token.1
  let c := { c with err := env.Token.2 }
  match token with
  | none => (c, .error (Fault.nilToken, o))
  | some t =>
    let o := { o with AccessToken := t.AccessToken }
    let o := { o with Expiry := t.Expiry }
    let c :=
      match i.beforeCheck with
      | some e => { c with err := e }
      | none => c
    match c.err with
    | none => (c, .ok { token := token, o := o })
    | some _ =>
      let c :=
        match i.beforeFormat with
        | some e => { c with err := e }
        | none => c
      let o := { o with Errors := o.Errors ++ [utf8 "error getting token: " ++ fmtW c.err] }
      (c, .ok { token := token, o := o })

/-- Lines 72 to 85: parse the access token and decode its claims unverified. -/
def decodeBlock (env : Collaborators JWT VR RC CL T) (token : Token T)
    (o : DebugStruct RC CL T) : DebugStruct RC CL T :=
  match env.ParseSigned token.AccessToken with
  | .error e =>
    { o with
      Errors := o.Errors ++ [utf8 "error parsing token: " ++ e ++ utf8 ": " ++ token.AccessToken] }
  | .ok jwtToken =>
    match env.UnsafeClaimsWithoutVerification jwtToken with
    | .error e =>
      { o with
        Errors :=
          o.Errors ++ [utf8 "error decoding token: " ++ e ++ utf8 ": " ++ token.AccessToken] }
    | .ok claims => { o with Claims := claims }

/-- Lines 87 to 99: validate the access token with the captured validator and
extract the registered claims. -/
def validateBlock (c : Captured Ctx VR) (r : Request Ctx) (env : Collaborators JWT VR RC CL T)
    (token : Token T) (o : DebugStruct RC CL T) :
    Except (Fault × DebugStruct RC CL T) (DebugStruct RC CL T) :=
  match c.v with
  | none => .error (Fault.nilValidator, o)
  | some v =>
    match v r.Context token.AccessToken with
    | .error e =>
      .ok { o with
        Errors :=
          o.Errors ++ [utf8 "error validating token: " ++ e ++ utf8 ": " ++ token.AccessToken] }
    | .ok validatedResponse =>
      match env.ExtractClaims validatedResponse with
      | .error e => .ok { o with Errors := o.Errors ++ [utf8 "error extracting claims: " ++ e] }
      | .ok rc => .ok { o with RegisteredClaims := rc }

/-- Lines 71 to 100: the guard on the token pointer around the two blocks. -/
def guarded (c : Captured Ctx VR) (r : Request Ctx) (env : Collaborators JWT VR RC CL T)
    (s : Locals RC CL T) : Except (Fault × DebugStruct RC CL T) (DebugStruct RC CL T) :=
  match s.token with
  | some token => validateBlock c r env token (decodeBlock env token s.o)
  | none => .ok s.o

/-- Lines 102 to 106: marshal `o`, dropping the error of `json.Marshal`, and
write the response. -/
def writeResponse (enc : Encoders RC CL T J) (w : ResponseWriter J) (o : DebugStruct RC CL T) :
    ResponseWriter J :=
  let outputBytes := Marshal enc o
  let w := w.HeaderSet "Content-Type" "application/json"
  let w := w.WriteHeader StatusOK
  w.Write outputBytes

/-- The handler returned by `FlyDebug` (lines 55 to 107), run on a fresh writer. -/
def handler (c : Captured Ctx VR) (r : Request Ctx) (env : Collaborators JWT VR RC CL T)
    (i : Interference) (enc : Encoders RC CL T J) : Run Ctx VR RC CL T J :=
  match fetchToken c env i with
  | (c, .error (f, o)) => { captured := c, o := o, w := ResponseWriter.fresh, fault := some f }
  | (c, .ok s) =>
    match guarded c r env s with
    | .error (f, o) => { captured := c, o := o, w := ResponseWriter.fresh, fault := some f }
    | .ok o =>
      { captured := c, o := o, w := writeResponse enc ResponseWriter.fresh o, fault := none }

end Handler

/-! ## Stage contributions

The strings and values each stage of the pipeline contributes, written stage by
stage; the handler, which threads one `DebugStruct` through the stages, is
compared with them below. -/

section Stages
variable {Ctx JWT VR RC CL T : Type} [Inhabited RC] [Inhabited CL] [Inhabited T]

/-- The value of the shared `err` at the test of line 66, when this invocation
assigned `written` at line 61. -/
def Interference.atCheck (i : Interference) (written : Option GoString) : Option GoString :=
  match i.beforeCheck with
  | some e => e
  | none => written

/-- The value of the shared `err` at the read of line 68. -/
def Interference.atFormat (i : Interference) (written : Option GoString) : Option GoString :=
  match i.beforeFormat with
  | some e => e
  | none => i.atCheck written

/-- The error strings the fetch stage contributes when the token source returned
the error `written`: one string if the shared `err` is non-nil at line 66,
formatted from its value at line 68. -/
def fetchErrors (i : Interference) (written : Option GoString) : List GoString :=
  match i.atCheck written with
  | none => []
  | some _ => [utf8 "error getting token: " ++ fmtW (i.atFormat written)]

/-- The value of the shared `err` after the last access of the invocation. -/
def errAfter (i : Interference) (written : Option GoString) : Option GoString :=
  match i.atCheck written with
  | none => none
  | some _ => i.atFormat written

/-- The error strings the parse-and-decode stage contributes for a raw token. -/
def decodeErrors (P : GoString → Except GoString JWT) (D : JWT → Except GoString CL)
    (raw : GoString) : List GoString :=
  match P raw with
  | .error e => [utf8 "error parsing token: " ++ e ++ utf8 ": " ++ raw]
  | .ok j =>
    match D j with
    | .error e => [utf8 "error decoding token: " ++ e ++ utf8 ": " ++ raw]
    | .ok _ => []

/-- The value the parse-and-decode stage leaves in `Claims` for a raw token. -/
def decodeClaims (P : GoString → Except GoString JWT) (D : JWT → Except GoString CL)
    (raw : GoString) : CL :=
  match P raw with
  | .error _ => default
  | .ok j =>
    match D j with
    | .error _ => default
    | .ok claims => claims

/-- The error strings the validate-and-extract stage contributes for a raw token.
With a nil validator the call panics before anything is appended. -/
def validationErrors (v : Option (Validator Ctx VR)) (E : VR → Except GoString RC) (ctx : Ctx)
    (raw : GoString) : List GoString :=
  match v with
  | none => []
  | some V =>
    match V ctx raw with
    | .error e => [utf8 "error validating token: " ++ e ++ utf8 ": " ++ raw]
    | .ok vr =>
      match E vr with
      | .error e => [utf8 "error extracting claims: " ++ e]
      | .ok _ => []

/-- The value the validate-and-extract stage leaves in `RegisteredClaims`. -/
def validationClaims (v : Option (Validator Ctx VR)) (E : VR → Except GoString RC) (ctx : Ctx)
    (raw : GoString) : RC :=
  match v with
  | none => default
  | some V =>
    match V ctx raw with
    | .error _ => default
    | .ok vr =>
      match E vr with
      | .error _ => default
      | .ok rc => rc

/-- The `DebugStruct` assembled from the contributions of the three stages, for
a token `tok` fetched together with the error `err`. -/
def assembled (i : Interference) (err : Option GoString) (P : GoString → Except GoString JWT)
    (D : JWT → Except GoString CL) (v : Option (Validator Ctx VR))
    (E : VR → Except GoString RC) (ctx : Ctx) (tok : Token T) : DebugStruct RC CL T :=
  { DecodedToken := none,
    Errors := fetchErrors i err ++ decodeErrors P D tok.AccessToken ++
      validationErrors v E ctx tok.AccessToken,
    RegisteredClaims := validationClaims v E ctx tok.AccessToken,
    Claims := decodeClaims P D tok.AccessToken,
    AccessToken := tok.AccessToken,
    Expiry := tok.Expiry }

end Stages

/-! ## Concrete inputs

Instances with `Unit` for the request context, byte strings for the parsed token
and the validated response, Lean strings standing for the two claim structs
(zero value `""`), and seconds since the zero time for `time.Time` (zero
value `0`). -/

/-- The encodings of the struct values of the instances. -/
inductive ExampleJSON where
  /-- The encoding of a claim struct. -/
  | claims (s : String)
  /-- The encoding of a time, as an RFC 3339 string in the real encoder. -/
  | time (seconds : Nat)
deriving DecidableEq, Repr

/-- Seconds from the zero time (January 1 of year 1, UTC) to the start of the
year 10000: 3652059 days. -/
def year10000 : Nat := 3652059 * 86400

/-- The encoders of the instances; that of a time fails from the year 10000 on,
as `Time.MarshalJSON` does. -/
def exEncoders : Encoders String String Nat ExampleJSON :=
  { RegisteredClaims := fun rc => some (.claims rc),
    Claims := fun c => some (.claims c),
    Time := fun t => if t < year10000 then some (.time t) else none }

/-- A request. -/
def exRequest : Request Unit := { Context := () }

/-- A token with the access token of the scenario and a non-zero expiry. -/
def exToken : Token Nat := { AccessToken := utf8 "abc.def.ghi", Expiry := 63835596800 }

/-- A non-nil validator that accepts every token. -/
def acceptAll : Validator Unit GoString := fun _ raw => .ok raw

/-- A non-nil validator that rejects every token. -/
def rejectAll : Validator Unit GoString := fun _ _ => .error (utf8 "signature invalid")

/-- A validator constructor that succeeds. -/
def constructOK : List ValidatorConfig → Except GoString (Validator Unit GoString) :=
  fun _ => .ok acceptAll

/-- A validator constructor that fails. -/
def constructFails : List ValidatorConfig → Except GoString (Validator Unit GoString) :=
  fun _ => .error (utf8 "discovery failed")

/-- The captured variables when construction gave the rejecting validator. -/
def capturedReject : Captured Unit GoString := { v := some rejectAll, err := none }

/-- Collaborators for which every stage succeeds on `exToken`. -/
def envAllOK : Collaborators GoString GoString String String Nat :=
  { Token := (some exToken, none),
    ParseSigned := fun raw => .ok raw,
    UnsafeClaimsWithoutVerification := fun _ => .ok "sub=app",
    ExtractClaims := fun _ => .ok "iss=fly" }

/-- The token source returns a nil token together with an error. -/
def envNilToken : Collaborators GoString GoString String String Nat :=
  { envAllOK with Token := (none, some (utf8 "metadata socket unavailable")) }

/-- The token source returns a token together with an error. -/
def envTokenAndError : Collaborators GoString GoString String String Nat :=
  { envAllOK with Token := (some exToken, some (utf8 "stale token")) }

/-- The parser rejects the access token (malformed segments). -/
def envParseFails : Collaborators GoString GoString String String Nat :=
  { envAllOK with ParseSigned := fun _ => .error (utf8 "malformed segments") }

/-- The parser accepts the access token but its payload does not decode. -/
def envDecodeFails : Collaborators GoString GoString String String Nat :=
  { envAllOK with
    UnsafeClaimsWithoutVerification := fun _ => .error (utf8 "payload is not an object") }

/-- The validator accepts but claim extraction fails. -/
def envExtractFails : Collaborators GoString GoString String String Nat :=
  { envAllOK with ExtractClaims := fun _ => .error (utf8 "unexpected claims type") }

/-- The token has the zero expiry and its access token does not parse. -/
def envZeroExpiry : Collaborators GoString GoString String String Nat :=
  { envParseFails with Token := (some { AccessToken := utf8 "abc.def.ghi", Expiry := 0 }, none) }

/-- The access token is the three bytes `a`, FF, `b`: FF is not valid UTF-8. -/
def envInvalidUTF8 : Collaborators GoString GoString String String Nat :=
  { envAllOK with Token := (some { AccessToken := [0x61, 0xFF, 0x62], Expiry := 63835596800 }, none) }

/-- The token expires at the start of the year 10000. -/
def envYear10000 : Collaborators GoString GoString String String Nat :=
  { envAllOK with Token := (some { AccessToken := utf8 "abc.def.ghi", Expiry := year10000 }, none) }

/-- Between lines 61 and 66 another invocation stores its own fetch error. -/
def otherFetchFailed : Interference :=
  { beforeCheck := some (some (utf8 "other request: timeout")), beforeFormat := none }

/-- Between lines 66 and 68 another invocation stores nil. -/
def otherFetchSucceeded : Interference :=
  { beforeCheck := none, beforeFormat := some none }

/-! ## Lemmas on the handler -/

section Lemmas
set_option linter.unusedSectionVars false
variable {Ctx JWT VR RC CL T J : Type} [Inhabited RC] [Inhabited CL] [Inhabited T]

/-- A string of ASCII bytes is valid UTF-8: its JSON encoding denotes it. -/
theorem toValidUTF8_ascii : ∀ (s : GoString), (∀ b ∈ s, b < 0x80) → toValidUTF8 s = s
  | [], _ => rfl
  | b :: bs, h => by
    have hb : b < 0x80 := h b (List.mem_cons_self _ _)
    have ih := toValidUTF8_ascii bs (fun x hx => h x (List.mem_cons_of_mem _ hx))
    unfold toValidUTF8 at ih ⊢
    simp [coerceFrom, runeLen, hb, ih]

/-- The encoder on sample strings: text of one to four bytes a character is
unchanged; a stray byte, a truncated or interrupted sequence, an overlong
encoding, a surrogate and a value past U+10FFFF are replaced byte by byte; an
encoded U+FFFD is kept. -/
theorem toValidUTF8_samples :
    utf8 "aé€😀" = [0x61, 0xC3, 0xA9, 0xE2, 0x82, 0xAC, 0xF0, 0x9F, 0x98, 0x80] ∧
    toValidUTF8 (utf8 "aé€😀") = utf8 "aé€😀" ∧
    toValidUTF8 [0x61, 0xFF, 0x62] = [0x61, 0xEF, 0xBF, 0xBD, 0x62] ∧
    toValidUTF8 [0xE2, 0x82] = [0xEF, 0xBF, 0xBD, 0xEF, 0xBF, 0xBD] ∧
    toValidUTF8 [0xE2, 0x82, 0x41] = [0xEF, 0xBF, 0xBD, 0xEF, 0xBF, 0xBD, 0x41] ∧
    toValidUTF8 [0xC0, 0x80] = [0xEF, 0xBF, 0xBD, 0xEF, 0xBF, 0xBD] ∧
    toValidUTF8 [0xED, 0xA0, 0x80] =
      [0xEF, 0xBF, 0xBD, 0xEF, 0xBF, 0xBD, 0xEF, 0xBF, 0xBD] ∧
    toValidUTF8 [0xF4, 0x90, 0x80, 0x80] =
      [0xEF, 0xBF, 0xBD, 0xEF, 0xBF, 0xBD, 0xEF, 0xBF, 0xBD, 0xEF, 0xBF, 0xBD] ∧
    toValidUTF8 [0xEF, 0xBF, 0xBD] = [0xEF, 0xBF, 0xBD] := by
  decide

/-- Alone, the fetch stage contributes the string of the error it was given. -/
theorem fetchErrors_quiet (err : Option GoString) :
    fetchErrors Interference.quiet err =
      match err with
      | some e => [utf8 "error getting token: " ++ e]
      | none => [] := by
  cases err <;> rfl

/-- Alone, the handler leaves in `err` what the token source returned. -/
theorem errAfter_quiet (err : Option GoString) : errAfter Interference.quiet err = err := by
  cases err <;> rfl

theorem decodeBlock_eq (env : Collaborators JWT VR RC CL T) (token : Token T)
    (o : DebugStruct RC CL T) (hc : o.Claims = default) :
    decodeBlock env token o =
      { o with
        Errors := o.Errors ++
          decodeErrors env.ParseSigned env.UnsafeClaimsWithoutVerification token.AccessToken,
        Claims := decodeClaims env.ParseSigned env.UnsafeClaimsWithoutVerification
          token.AccessToken } := by
  unfold decodeBlock decodeErrors decodeClaims
  cases hP : env.ParseSigned token.AccessToken with
  | error e => simp [hc]
  | ok j =>
    cases hD : env.UnsafeClaimsWithoutVerification j with
    | error e => simp [hD, hc]
    | ok cl => simp [hD]

theorem validateBlock_some (c : Captured Ctx VR) (r : Request Ctx)
    (env : Collaborators JWT VR RC CL T) (token : Token T) (o : DebugStruct RC CL T)
    (V : Validator Ctx VR) (hv : c.v = some V) (hc : o.RegisteredClaims = default) :
    validateBlock c r env token o =
      .ok { o with
        Errors := o.Errors ++
          validationErrors (some V) env.ExtractClaims r.Context token.AccessToken,
        RegisteredClaims :=
          validationClaims (some V) env.ExtractClaims r.Context token.AccessToken } := by
  unfold validateBlock validationErrors validationClaims
  simp only [hv]
  cases hV : V r.Context token.AccessToken with
  | error e => simp [hc]
  | ok vr =>
    cases hE : env.ExtractClaims vr with
    | error e => simp [hE, hc]
    | ok rc => simp [hE]

theorem fetchToken_some (c : Captured Ctx VR) (env : Collaborators JWT VR RC CL T)
    (i : Interference) (tok : Token T) (htok : env.Token.1 = some tok) :
    fetchToken c env i =
      ({ v := c.v, err := errAfter i env.Token.2 },
        .ok { token := some tok,
              o := { DecodedToken := none, Errors := fetchErrors i env.Token.2,
                     RegisteredClaims := default, Claims := default,
                     AccessToken := tok.AccessToken, Expiry := tok.Expiry } }) := by
  obtain ⟨bc, bf⟩ := i
  unfold fetchToken fetchErrors errAfter Interference.atFormat Interference.atCheck
    DebugStruct.zero
  simp only [htok]
  cases bc with
  | none =>
    cases env.Token.2 with
    | none => simp
    | some e => cases bf <;> simp
  | some x =>
    cases x with
    | none => simp
    | some e => cases bf <;> simp

theorem fetchToken_none (c : Captured Ctx VR) (env : Collaborators JWT VR RC CL T)
    (i : Interference) (htok : env.Token.1 = none) :
    fetchToken c env i =
      ({ v := c.v, err := env.Token.2 }, .error (Fault.nilToken, DebugStruct.zero)) := by
  unfold fetchToken
  simp only [htok]

/-- What `writeResponse` leaves in a fresh writer. -/
theorem writeResponse_fresh (enc : Encoders RC CL T J) (o : DebugStruct RC CL T) :
    writeResponse enc ResponseWriter.fresh o =
      { Header := [("Content-Type", "application/json")], Status := some 200,
        Body := (Marshal enc o).toList } := by
  cases h : Marshal enc o <;>
    simp [writeResponse, ResponseWriter.fresh, ResponseWriter.HeaderSet,
      ResponseWriter.WriteHeader, ResponseWriter.Write, StatusOK, h]

/-- With a non-nil token the local `o` is the one assembled from the three
stages; the handler returns and writes the response exactly when the validator
is non-nil, and panics at line 87 otherwise. -/
theorem handler_token (c : Captured Ctx VR) (r : Request Ctx)
    (env : Collaborators JWT VR RC CL T) (i : Interference) (enc : Encoders RC CL T J)
    (tok : Token T) (htok : env.Token.1 = some tok) :
    handler c r env i enc =
      { captured := { v := c.v, err := errAfter i env.Token.2 },
        o := assembled i env.Token.2 env.ParseSigned env.UnsafeClaimsWithoutVerification c.v
          env.ExtractClaims r.Context tok,
        w :=
          match c.v with
          | some _ => writeResponse enc ResponseWriter.fresh
              (assembled i env.Token.2 env.ParseSigned env.UnsafeClaimsWithoutVerification c.v
                env.ExtractClaims r.Context tok)
          | none => ResponseWriter.fresh,
        fault :=
          match c.v with
          | some _ => none
          | none => some Fault.nilValidator } := by
  obtain ⟨v, cerr⟩ := c
  unfold handler
  rw [fetchToken_some _ env i tok htok]
  simp only [guarded]
  rw [decodeBlock_eq env tok _ rfl]
  cases v with
  | none => simp [validateBlock, assembled, validationErrors, validationClaims]
  | some V =>
    rw [validateBlock_some ⟨some V, errAfter i env.Token.2⟩ r env tok _ V rfl rfl]
    simp [assembled, List.append_assoc]

/-- The lemma `handler_token` for collaborators given field by field. -/
theorem handler_token_mk (c : Captured Ctx VR) (r : Request Ctx) (i : Interference)
    (enc : Encoders RC CL T J) (tok : Token T)
    (err : Option GoString) (P : GoString → Except GoString JWT)
    (D : JWT → Except GoString CL) (E : VR → Except GoString RC) :
    handler c r ⟨(some tok, err), P, D, E⟩ i enc =
      { captured := { v := c.v, err := errAfter i err },
        o := assembled i err P D c.v E r.Context tok,
        w :=
          match c.v with
          | some _ => writeResponse enc ResponseWriter.fresh
              (assembled i err P D c.v E r.Context tok)
          | none => ResponseWriter.fresh,
        fault :=
          match c.v with
          | some _ => none
          | none => some Fault.nilValidator } :=
  handler_token c r ⟨(some tok, err), P, D, E⟩ i enc tok rfl

/-- With a nil token the handler panics at line 63. -/
theorem handler_nil_token (c : Captured Ctx VR) (r : Request Ctx)
    (env : Collaborators JWT VR RC CL T) (i : Interference) (enc : Encoders RC CL T J)
    (htok : env.Token.1 = none) :
    handler c r env i enc =
      { captured := { v := c.v, err := env.Token.2 },
        o := DebugStruct.zero,
        w := ResponseWriter.fresh,
        fault := some Fault.nilToken } := by
  unfold handler
  rw [fetchToken_none c env i htok]

/-- Every encoded member comes from a field of the list, under the same name. -/
theorem mem_of_encodeFields (enc : Encoders RC CL T J) :
    ∀ (fs : List (String × GoValue RC CL T)) (ms : List (String × JSONValue J)),
      encodeFields enc fs = some ms →
      (∀ f ∈ fs, ∃ j, encodeValue enc f.2 = some j ∧ (f.1, j) ∈ ms) ∧
      (∀ m ∈ ms, ∃ f ∈ fs, f.1 = m.1 ∧ encodeValue enc f.2 = some m.2)
  | [], ms, h => by
    simp [encodeFields] at h
    subst h
    simp
  | f :: fs, ms, h => by
    unfold encodeFields at h
    cases hj : encodeValue enc f.2 with
    | none => simp [hj] at h
    | some j =>
      cases hjs : encodeFields enc fs with
      | none => simp [hj, hjs] at h
      | some js =>
        simp [hj, hjs] at h
        subst h
        have ih := mem_of_encodeFields enc fs js hjs
        refine ⟨?_, ?_⟩
        · intro g hg
          rcases List.mem_cons.mp hg with rfl | hg
          · exact ⟨j, hj, List.mem_cons_self _ _⟩
          · obtain ⟨k, hk, hmem⟩ := ih.1 g hg
            exact ⟨k, hk, List.mem_cons_of_mem _ hmem⟩
        · intro m hm
          rcases List.mem_cons.mp hm with rfl | hm
          · exact ⟨f, List.mem_cons_self _ _, rfl, hj⟩
          · obtain ⟨g, hg, hname, henc⟩ := ih.2 m hm
            exact ⟨g, List.mem_cons_of_mem _ hg, hname, henc⟩

/-- The three struct-typed fields are kept by omitempty, whatever their value. -/
theorem struct_fields_mem_kept (o : DebugStruct RC CL T) :
    ("RegisteredClaims", GoValue.RegisteredClaims o.RegisteredClaims) ∈ o.kept ∧
    ("Claims", GoValue.Claims o.Claims) ∈ o.kept ∧
    ("Expiry", GoValue.Time o.Expiry) ∈ o.kept := by
  simp [DebugStruct.kept, DebugStruct.fields, isEmptyValue]

/-- A non-empty access token is kept by omitempty. -/
theorem accessToken_mem_kept (o : DebugStruct RC CL T) (h : o.AccessToken ≠ []) :
    ("AccessToken", GoValue.String o.AccessToken) ∈ o.kept := by
  simp [DebugStruct.kept, DebugStruct.fields, isEmptyValue, h]

/-- If one of the kept fields cannot be encoded, `json.Marshal` fails. -/
theorem encodeFields_none (enc : Encoders RC CL T J) :
    ∀ (fs : List (String × GoValue RC CL T)) (f : String × GoValue RC CL T),
      f ∈ fs → encodeValue enc f.2 = none → encodeFields enc fs = none
  | [], f, hf, _ => by simp at hf
  | g :: gs, f, hf, hnone => by
    unfold encodeFields
    rcases List.mem_cons.mp hf with rfl | hf
    · simp [hnone]
    · cases hg : encodeValue enc g.2 with
      | none => rfl
      | some j => simp [encodeFields_none enc gs f hf hnone]

end Lemmas

/-! ## Claims -/

section Claims
set_option linter.unusedSectionVars false
set_option maxRecDepth 16384
variable {Ctx JWT VR RC CL T J : Type} [Inhabited RC] [Inhabited CL] [Inhabited T]

/-- C1, evaluated where it fails. The handler does not always complete with a
200 response. When the token source returns a nil token together with an error,
the run panics at line 63 and nothing has been written (no status, no header, no
body); when validator construction failed, a run that obtained a token panics at
line 87, again with nothing written. -/
theorem handler_faults_without_response :
    (handler (FlyDebug constructOK) exRequest envNilToken Interference.quiet exEncoders).fault =
      some Fault.nilToken ∧
    (handler (FlyDebug constructOK) exRequest envNilToken Interference.quiet exEncoders).w.Status =
      none ∧
    (handler (FlyDebug constructOK) exRequest envNilToken Interference.quiet exEncoders).w.Header =
      [] ∧
    (handler (FlyDebug constructOK) exRequest envNilToken Interference.quiet exEncoders).w.Body =
      [] ∧
    (handler (FlyDebug constructFails) exRequest envAllOK Interference.quiet exEncoders).fault =
      some Fault.nilValidator ∧
    (handler (FlyDebug constructFails) exRequest envAllOK Interference.quiet exEncoders).w.Status =
      none ∧
    (handler (FlyDebug constructFails) exRequest envAllOK Interference.quiet exEncoders).w.Header =
      [] ∧
    (handler (FlyDebug constructFails) exRequest envAllOK Interference.quiet exEncoders).w.Body =
      [] := by
  decide

/-- C2 as stated fails. The validator accepts the token, claim extraction then
fails: `RegisteredClaims` is left at its zero value and the validation stage has
appended a string, although `ValidateToken` returned no error. -/
theorem extraction_failure_after_accept :
    acceptAll exRequest.Context exToken.AccessToken = .ok (utf8 "abc.def.ghi") ∧
    (handler (FlyDebug constructOK) exRequest envExtractFails Interference.quiet
      exEncoders).fault = none ∧
    (handler (FlyDebug constructOK) exRequest envExtractFails Interference.quiet
      exEncoders).o.RegisteredClaims = "" ∧
    (handler (FlyDebug constructOK) exRequest envExtractFails Interference.quiet
      exEncoders).o.Errors = [utf8 "error extracting claims: unexpected claims type"] :=
  ⟨rfl, by decide, by decide, by decide⟩

/-- C2, amended. With a token obtained and a validator constructed, the handler
returns and writes what `json.Marshal` gives for `o`, and the validation stage
does exactly one of three things. If `ValidateToken` rejects the token,
`RegisteredClaims` stays at its zero value and the one string
"error validating token: e: raw" is appended after the strings of the earlier
stages. If it accepts and `ExtractClaims` fails, `RegisteredClaims` stays at its
zero value and the one string "error extracting claims: e" is appended. If it
accepts and extraction succeeds, `RegisteredClaims` holds the extracted claims
and the stage appends nothing. This holds whatever other invocations do to the
shared `err`. -/
theorem validation_stage_outcomes (c : Captured Ctx VR) (r : Request Ctx)
    (env : Collaborators JWT VR RC CL T) (i : Interference) (enc : Encoders RC CL T J)
    (tok : Token T) (V : Validator Ctx VR)
    (htok : env.Token.1 = some tok) (hv : c.v = some V) :
    (handler c r env i enc).fault = none ∧
    (handler c r env i enc).w.Body = (Marshal enc (handler c r env i enc).o).toList ∧
    (∀ e, V r.Context tok.AccessToken = .error e →
      (handler c r env i enc).o.RegisteredClaims = default ∧
      (handler c r env i enc).o.Errors =
        fetchErrors i env.Token.2 ++
          decodeErrors env.ParseSigned env.UnsafeClaimsWithoutVerification tok.AccessToken ++
          [utf8 "error validating token: " ++ e ++ utf8 ": " ++ tok.AccessToken]) ∧
    (∀ vr e, V r.Context tok.AccessToken = .ok vr → env.ExtractClaims vr = .error e →
      (handler c r env i enc).o.RegisteredClaims = default ∧
      (handler c r env i enc).o.Errors =
        fetchErrors i env.Token.2 ++
          decodeErrors env.ParseSigned env.UnsafeClaimsWithoutVerification tok.AccessToken ++
          [utf8 "error extracting claims: " ++ e]) ∧
    (∀ vr rc, V r.Context tok.AccessToken = .ok vr → env.ExtractClaims vr = .ok rc →
      (handler c r env i enc).o.RegisteredClaims = rc ∧
      (handler c r env i enc).o.Errors =
        fetchErrors i env.Token.2 ++
          decodeErrors env.ParseSigned env.UnsafeClaimsWithoutVerification tok.AccessToken) := by
  rw [handler_token c r env i enc tok htok]
  simp only [hv, writeResponse_fresh, assembled, validationErrors, validationClaims]
  refine ⟨trivial, trivial, ?_, ?_, ?_⟩
  · intro e he
    simp [he]
  · intro vr e hvr he
    simp [hvr, he]
  · intro vr rc hvr hrc
    simp [hvr, hrc]

/-- Witness for C2 amended, at the rejecting validator and the token
"abc.def.ghi": no registered claims and the single validation string. -/
theorem validation_stage_outcomes_witness :
    envAllOK.Token.1 = some exToken ∧ capturedReject.v = some rejectAll ∧
    (handler capturedReject exRequest envAllOK Interference.quiet exEncoders).o.RegisteredClaims =
      "" ∧
    (handler capturedReject exRequest envAllOK Interference.quiet exEncoders).o.Errors =
      [utf8 "error validating token: signature invalid: abc.def.ghi"] :=
  ⟨rfl, rfl,
    ((validation_stage_outcomes capturedReject exRequest envAllOK Interference.quiet exEncoders
      exToken rejectAll rfl rfl).2.2.1 (utf8 "signature invalid") rfl).1,
    ((validation_stage_outcomes capturedReject exRequest envAllOK Interference.quiet exEncoders
      exToken rejectAll rfl rfl).2.2.1 (utf8 "signature invalid") rfl).2.trans (by decide)⟩

/-- C3 as stated fails. `ParseSigned` succeeds on the access token, decoding the
claims then fails: `Claims` is left at its zero value and the decode stage has
appended a string. -/
theorem decoder_failure_after_parse :
    envDecodeFails.ParseSigned exToken.AccessToken = .ok (utf8 "abc.def.ghi") ∧
    (handler (FlyDebug constructOK) exRequest envDecodeFails Interference.quiet
      exEncoders).fault = none ∧
    (handler (FlyDebug constructOK) exRequest envDecodeFails Interference.quiet
      exEncoders).o.Claims = "" ∧
    (handler (FlyDebug constructOK) exRequest envDecodeFails Interference.quiet
      exEncoders).o.Errors = [utf8 "error decoding token: payload is not an object: abc.def.ghi"] :=
  ⟨rfl, by decide, by decide, by decide⟩

/-- C3, amended. With a token obtained, the decode stage does exactly one of
three things to the local `o`, which is handed to `json.Marshal` for the response
whenever the validator is non-nil. If `ParseSigned` fails, `Claims` stays at its
zero value and the one string "error parsing token: e: raw" is appended after the
fetch strings. If it succeeds and decoding the claims fails, `Claims` stays at
its zero value and the one string "error decoding token: e: raw" is appended.
If both succeed, `Claims` holds the decoded claims and the stage appends nothing.
In each case only the strings of the validation stage follow. This holds
whatever other invocations do to the shared `err`. -/
theorem decode_stage_outcomes (c : Captured Ctx VR) (r : Request Ctx)
    (env : Collaborators JWT VR RC CL T) (i : Interference) (enc : Encoders RC CL T J)
    (tok : Token T) (htok : env.Token.1 = some tok) :
    (c.v ≠ none →
      (handler c r env i enc).fault = none ∧
      (handler c r env i enc).w.Body = (Marshal enc (handler c r env i enc).o).toList) ∧
    (∀ e, env.ParseSigned tok.AccessToken = .error e →
      (handler c r env i enc).o.Claims = default ∧
      (handler c r env i enc).o.Errors =
        fetchErrors i env.Token.2 ++
          [utf8 "error parsing token: " ++ e ++ utf8 ": " ++ tok.AccessToken] ++
          validationErrors c.v env.ExtractClaims r.Context tok.AccessToken) ∧
    (∀ j e, env.ParseSigned tok.AccessToken = .ok j →
      env.UnsafeClaimsWithoutVerification j = .error e →
      (handler c r env i enc).o.Claims = default ∧
      (handler c r env i enc).o.Errors =
        fetchErrors i env.Token.2 ++
          [utf8 "error decoding token: " ++ e ++ utf8 ": " ++ tok.AccessToken] ++
          validationErrors c.v env.ExtractClaims r.Context tok.AccessToken) ∧
    (∀ j claims, env.ParseSigned tok.AccessToken = .ok j →
      env.UnsafeClaimsWithoutVerification j = .ok claims →
      (handler c r env i enc).o.Claims = claims ∧
      (handler c r env i enc).o.Errors =
        fetchErrors i env.Token.2 ++
          validationErrors c.v env.ExtractClaims r.Context tok.AccessToken) := by
  rw [handler_token c r env i enc tok htok]
  simp only [assembled, decodeErrors, decodeClaims]
  refine ⟨?_, ?_, ?_, ?_⟩
  · intro hv
    cases hcv : c.v with
    | none => exact absurd hcv hv
    | some V => simp [writeResponse_fresh]
  · intro e he
    simp [he]
  · intro j e hj he
    simp [hj, he]
  · intro j claims hj hcl
    simp [hj, hcl]

/-- Witness for C3 amended, at the scenario of the specification: the access
token "abc.def.ghi" does not parse, the validator accepts it. -/
theorem decode_stage_outcomes_witness :
    envParseFails.Token.1 = some exToken ∧
    (handler (FlyDebug constructOK) exRequest envParseFails Interference.quiet
      exEncoders).o.Claims = "" ∧
    (handler (FlyDebug constructOK) exRequest envParseFails Interference.quiet
      exEncoders).o.Errors = [utf8 "error parsing token: malformed segments: abc.def.ghi"] :=
  ⟨rfl,
    ((decode_stage_outcomes (FlyDebug constructOK) exRequest envParseFails Interference.quiet
      exEncoders exToken rfl).2.1 (utf8 "malformed segments") rfl).1,
    ((decode_stage_outcomes (FlyDebug constructOK) exRequest envParseFails Interference.quiet
      exEncoders exToken rfl).2.1 (utf8 "malformed segments") rfl).2.trans (by decide)⟩

/-- C4, evaluated where it fails. When construction fails, `FlyDebug` captures a
nil validator and the wrapped error. Every later run that obtains a token then
panics at the method call of line 87: nothing is written, and the local `o`
holds only what the fetch and decode stages put there, so no validation string
was appended. The last five conjuncts are the run of the request with the token
"abc.def.ghi". -/
theorem failed_construction_panics :
    (∀ (e : GoString) (r : Request Ctx) (tok : Token T) (err : Option GoString)
        (P : GoString → Except GoString JWT) (D : JWT → Except GoString CL)
        (E : VR → Except GoString RC) (i : Interference) (enc : Encoders RC CL T J),
      (FlyDebug (fun _ => (.error e : Except GoString (Validator Ctx VR)))).v = none ∧
      (FlyDebug (fun _ => (.error e : Except GoString (Validator Ctx VR)))).err =
        some (utf8 "error creating validator: " ++ e) ∧
      (handler (FlyDebug (fun _ => (.error e : Except GoString (Validator Ctx VR)))) r
        ⟨(some tok, err), P, D, E⟩ i enc).fault = some Fault.nilValidator ∧
      (handler (FlyDebug (fun _ => (.error e : Except GoString (Validator Ctx VR)))) r
        ⟨(some tok, err), P, D, E⟩ i enc).w = ResponseWriter.fresh ∧
      (handler (FlyDebug (fun _ => (.error e : Except GoString (Validator Ctx VR)))) r
        ⟨(some tok, err), P, D, E⟩ i enc).o.Errors =
        fetchErrors i err ++ decodeErrors P D tok.AccessToken) ∧
    (FlyDebug constructFails).err = some (utf8 "error creating validator: discovery failed") ∧
    (handler (FlyDebug constructFails) exRequest envAllOK Interference.quiet exEncoders).fault =
      some Fault.nilValidator ∧
    (handler (FlyDebug constructFails) exRequest envAllOK Interference.quiet exEncoders).w.Status =
      none ∧
    (handler (FlyDebug constructFails) exRequest envAllOK Interference.quiet exEncoders).w.Body =
      [] ∧
    (handler (FlyDebug constructFails) exRequest envAllOK Interference.quiet
      exEncoders).o.Errors = [] := by
  refine ⟨?_, by decide, by decide, by decide, by decide, by decide⟩
  intro e r tok err P D E i enc
  rw [handler_token_mk]
  simp [FlyDebug, FlyValidator, assembled, validationErrors]

/-- C5. Decoding and validation are independent. (1) Two runs on the same token
that differ only in what the parser and the claims decoder return end the same
way, leave the same `RegisteredClaims`, and carry the same validation strings
after their own decode strings; the validation stage is computed from the raw
access token alone. (2) Two runs that differ only in what the validator and the
extractor return both return, leave the same `Claims`, and carry the same decode
strings. (3) If decoding fails and validation succeeds, or (4) decoding succeeds
and validation fails, the two stages together append exactly one string and
exactly one of `Claims` and `RegisteredClaims` is assigned. This holds whatever
other invocations do to the shared `err`. -/
theorem decode_validation_independent (c : Captured Ctx VR) (r : Request Ctx) (tok : Token T)
    (err cerr : Option GoString) (P P' : GoString → Except GoString JWT)
    (D D' : JWT → Except GoString CL) (V V' : Validator Ctx VR)
    (E E' : VR → Except GoString RC) (i : Interference) (enc : Encoders RC CL T J) :
    ((handler c r ⟨(some tok, err), P, D, E⟩ i enc).fault =
        (handler c r ⟨(some tok, err), P', D', E⟩ i enc).fault ∧
      (handler c r ⟨(some tok, err), P, D, E⟩ i enc).o.RegisteredClaims =
        (handler c r ⟨(some tok, err), P', D', E⟩ i enc).o.RegisteredClaims ∧
      (handler c r ⟨(some tok, err), P, D, E⟩ i enc).o.RegisteredClaims =
        validationClaims c.v E r.Context tok.AccessToken ∧
      (handler c r ⟨(some tok, err), P, D, E⟩ i enc).o.Errors =
        fetchErrors i err ++ decodeErrors P D tok.AccessToken ++
          validationErrors c.v E r.Context tok.AccessToken ∧
      (handler c r ⟨(some tok, err), P', D', E⟩ i enc).o.Errors =
        fetchErrors i err ++ decodeErrors P' D' tok.AccessToken ++
          validationErrors c.v E r.Context tok.AccessToken) ∧
    ((handler ⟨some V, cerr⟩ r ⟨(some tok, err), P, D, E⟩ i enc).fault = none ∧
      (handler ⟨some V', cerr⟩ r ⟨(some tok, err), P, D, E'⟩ i enc).fault = none ∧
      (handler ⟨some V, cerr⟩ r ⟨(some tok, err), P, D, E⟩ i enc).o.Claims =
        (handler ⟨some V', cerr⟩ r ⟨(some tok, err), P, D, E'⟩ i enc).o.Claims ∧
      (handler ⟨some V, cerr⟩ r ⟨(some tok, err), P, D, E⟩ i enc).o.Claims =
        decodeClaims P D tok.AccessToken ∧
      (handler ⟨some V, cerr⟩ r ⟨(some tok, err), P, D, E⟩ i enc).o.Errors =
        fetchErrors i err ++ decodeErrors P D tok.AccessToken ++
          validationErrors (some V) E r.Context tok.AccessToken ∧
      (handler ⟨some V', cerr⟩ r ⟨(some tok, err), P, D, E'⟩ i enc).o.Errors =
        fetchErrors i err ++ decodeErrors P D tok.AccessToken ++
          validationErrors (some V') E' r.Context tok.AccessToken) ∧
    (∀ vr rc, (¬ ∃ j claims, P tok.AccessToken = .ok j ∧ D j = .ok claims) →
      V r.Context tok.AccessToken = .ok vr → E vr = .ok rc →
      ∃ s,
        (handler ⟨some V, cerr⟩ r ⟨(some tok, err), P, D, E⟩ i enc).o.Errors =
          fetchErrors i err ++ [s] ∧
        (handler ⟨some V, cerr⟩ r ⟨(some tok, err), P, D, E⟩ i enc).o.RegisteredClaims = rc ∧
        (handler ⟨some V, cerr⟩ r ⟨(some tok, err), P, D, E⟩ i enc).o.Claims = default) ∧
    (∀ j claims, P tok.AccessToken = .ok j → D j = .ok claims →
      (¬ ∃ vr rc, V r.Context tok.AccessToken = .ok vr ∧ E vr = .ok rc) →
      ∃ s,
        (handler ⟨some V, cerr⟩ r ⟨(some tok, err), P, D, E⟩ i enc).o.Errors =
          fetchErrors i err ++ [s] ∧
        (handler ⟨some V, cerr⟩ r ⟨(some tok, err), P, D, E⟩ i enc).o.Claims = claims ∧
        (handler ⟨some V, cerr⟩ r ⟨(some tok, err), P, D, E⟩ i enc).o.RegisteredClaims =
          default) := by
  simp only [handler_token_mk, assembled]
  refine ⟨⟨trivial, trivial, trivial, trivial, trivial⟩,
    ⟨trivial, trivial, trivial, trivial, trivial, trivial⟩, ?_, ?_⟩
  · intro vr rc hdec hV hE
    cases hP : P tok.AccessToken with
    | error e =>
      refine ⟨utf8 "error parsing token: " ++ e ++ utf8 ": " ++ tok.AccessToken, ?_, ?_, ?_⟩ <;>
        simp [validationErrors, validationClaims, decodeErrors, decodeClaims, hV, hE, hP]
    | ok j =>
      cases hD : D j with
      | error e =>
        refine ⟨utf8 "error decoding token: " ++ e ++ utf8 ": " ++ tok.AccessToken,
          ?_, ?_, ?_⟩ <;>
          simp [validationErrors, validationClaims, decodeErrors, decodeClaims, hV, hE, hP, hD]
      | ok claims => exact absurd ⟨j, claims, hP, hD⟩ hdec
  · intro j claims hP hD hval
    cases hV : V r.Context tok.AccessToken with
    | error e =>
      refine ⟨utf8 "error validating token: " ++ e ++ utf8 ": " ++ tok.AccessToken,
        ?_, ?_, ?_⟩ <;>
        simp [validationErrors, validationClaims, decodeErrors, decodeClaims, hV, hP, hD]
    | ok vr =>
      cases hE : E vr with
      | error e =>
        refine ⟨utf8 "error extracting claims: " ++ e, ?_, ?_, ?_⟩ <;>
          simp [validationErrors, validationClaims, decodeErrors, decodeClaims, hV, hE, hP, hD]
      | ok rc => exact absurd ⟨vr, rc, hV, hE⟩ hval

/-- Witness for C5, at the scenario of the specification: the access token
"abc.def.ghi" does not parse and the validator accepts it, so one string is
appended and `RegisteredClaims` alone is assigned. -/
theorem decode_validation_independent_witness :
    ∃ s,
      (handler (FlyDebug constructOK) exRequest envParseFails Interference.quiet
        exEncoders).o.Errors = [s] ∧
      (handler (FlyDebug constructOK) exRequest envParseFails Interference.quiet
        exEncoders).o.RegisteredClaims = "iss=fly" ∧
      (handler (FlyDebug constructOK) exRequest envParseFails Interference.quiet
        exEncoders).o.Claims = "" :=
  (decode_validation_independent (FlyDebug constructOK) exRequest exToken none none
    envParseFails.ParseSigned envParseFails.ParseSigned
    envParseFails.UnsafeClaimsWithoutVerification envParseFails.UnsafeClaimsWithoutVerification
    acceptAll acceptAll envParseFails.ExtractClaims envParseFails.ExtractClaims
    Interference.quiet exEncoders).2.2.1
    (utf8 "abc.def.ghi") "iss=fly" (by rintro ⟨j, claims, h, -⟩; cases h) rfl rfl

/-- C6, evaluated where it fails. (a) The token source returns an error together
with a nil token: the run panics at line 63, so the fetch error is in no `Errors`
list (the local `o` is still empty), no later stage has run and nothing is
written. (b) After a failed validator construction a run whose access token does
not parse panics at line 87 and writes nothing. (c) Every stage of the run
succeeds, but another invocation stores its fetch error in the shared `err`
between lines 61 and 66: `Errors` holds the other invocation's string. (d) The
token source returns a token together with an error and another invocation
stores nil between lines 66 and 68: the fetch string is formatted from nil. -/
theorem errors_list_diverges :
    envNilToken.Token = (none, some (utf8 "metadata socket unavailable")) ∧
    (handler (FlyDebug constructOK) exRequest envNilToken Interference.quiet exEncoders).fault =
      some Fault.nilToken ∧
    (handler (FlyDebug constructOK) exRequest envNilToken Interference.quiet
      exEncoders).o.Errors = [] ∧
    (handler (FlyDebug constructOK) exRequest envNilToken Interference.quiet exEncoders).w.Body =
      [] ∧
    (handler (FlyDebug constructFails) exRequest envParseFails Interference.quiet
      exEncoders).fault = some Fault.nilValidator ∧
    (handler (FlyDebug constructFails) exRequest envParseFails Interference.quiet
      exEncoders).w.Body = [] ∧
    (handler (FlyDebug constructOK) exRequest envAllOK otherFetchFailed exEncoders).fault =
      none ∧
    (handler (FlyDebug constructOK) exRequest envAllOK otherFetchFailed exEncoders).o.Errors =
      [utf8 "error getting token: other request: timeout"] ∧
    (handler (FlyDebug constructOK) exRequest envTokenAndError otherFetchSucceeded
      exEncoders).o.Errors = [utf8 "error getting token: %!w(<nil>)"] := by
  decide

/-- C7 as stated fails. (a) The token source returns, without error, a token
whose access token is the bytes `a`, FF, `b`; every stage succeeds. The member
"AccessToken" of the body is the string `a`, U+FFFD, `b`, not the access token.
(b) The token source returns, without error, a token that expires in the year
10000; every stage succeeds. `json.Marshal` fails, its error is dropped, and the
handler writes status 200 with an empty body, which carries neither field. -/
theorem access_token_not_copied_verbatim :
    envInvalidUTF8.Token =
      (some { AccessToken := [0x61, 0xFF, 0x62], Expiry := 63835596800 }, none) ∧
    (handler (FlyDebug constructOK) exRequest envInvalidUTF8 Interference.quiet
      exEncoders).fault = none ∧
    (handler (FlyDebug constructOK) exRequest envInvalidUTF8 Interference.quiet
      exEncoders).w.Body =
      [[("RegisteredClaims", JSONValue.Encoded (ExampleJSON.claims "iss=fly")),
        ("Claims", JSONValue.Encoded (ExampleJSON.claims "sub=app")),
        ("AccessToken", JSONValue.String [0x61, 0xEF, 0xBF, 0xBD, 0x62]),
        ("Expiry", JSONValue.Encoded (ExampleJSON.time 63835596800))]] ∧
    envYear10000.Token =
      (some { AccessToken := utf8 "abc.def.ghi", Expiry := 3652059 * 86400 }, none) ∧
    (handler (FlyDebug constructOK) exRequest envYear10000 Interference.quiet
      exEncoders).fault = none ∧
    (handler (FlyDebug constructOK) exRequest envYear10000 Interference.quiet
      exEncoders).w.Status = some 200 ∧
    (handler (FlyDebug constructOK) exRequest envYear10000 Interference.quiet
      exEncoders).w.Body = [] :=
  ⟨rfl, by decide, by decide, rfl, by decide, by decide, by decide⟩

/-- C7, amended. Whenever the token source returns a non-nil token (in
particular one returned without error), the `AccessToken` and `Expiry` of the
local `o` are exactly those of the token, whatever the later stages and other
invocations do. Whenever the validator is non-nil the handler returns with
status 200 and writes what `json.Marshal` gives for `o`. Whenever that call
succeeds, the body has exactly one member "Expiry", the encoding of the expiry
of the token, and, unless the access token is empty, exactly one member
"AccessToken", the access token with each invalid UTF-8 byte replaced by
U+FFFD; with an empty access token omitempty drops the member. -/
theorem token_fields_copied (c : Captured Ctx VR) (r : Request Ctx)
    (env : Collaborators JWT VR RC CL T) (i : Interference) (enc : Encoders RC CL T J)
    (tok : Token T) (htok : env.Token.1 = some tok) :
    (handler c r env i enc).o.AccessToken = tok.AccessToken ∧
    (handler c r env i enc).o.Expiry = tok.Expiry ∧
    (c.v ≠ none →
      (handler c r env i enc).fault = none ∧
      (handler c r env i enc).w.Status = some 200 ∧
      (handler c r env i enc).w.Body = (Marshal enc (handler c r env i enc).o).toList ∧
      (∀ members, Marshal enc (handler c r env i enc).o = some members →
        (∃ j, enc.Time tok.Expiry = some j ∧
          ∀ x, ("Expiry", x) ∈ members ↔ x = JSONValue.Encoded j) ∧
        (tok.AccessToken ≠ [] →
          ∀ x, ("AccessToken", x) ∈ members ↔
            x = JSONValue.String (toValidUTF8 tok.AccessToken)) ∧
        (tok.AccessToken = [] → ∀ x, ("AccessToken", x) ∉ members))) := by
  rw [handler_token c r env i enc tok htok]
  refine ⟨rfl, rfl, ?_⟩
  intro hv
  cases hcv : c.v with
  | none => exact absurd hcv hv
  | some V =>
    refine ⟨rfl, ?_, ?_, ?_⟩
    · simp [writeResponse_fresh]
    · simp [writeResponse_fresh]
    · intro members hm
      have hall := mem_of_encodeFields enc _ members hm
      refine ⟨?_, ?_, ?_⟩
      · obtain ⟨j, hj, hmem⟩ := hall.1 _ (struct_fields_mem_kept _).2.2
        cases hT : enc.Time tok.Expiry with
        | none => simp [encodeValue, assembled, hT] at hj
        | some t =>
          simp only [encodeValue, assembled, hT, Option.map_some', Option.some.injEq] at hj
          subst hj
          refine ⟨t, rfl, ?_⟩
          intro x
          constructor
          · intro hx
            obtain ⟨f, hf, hname, henc⟩ := hall.2 _ hx
            simp only [DebugStruct.kept, DebugStruct.fields, List.mem_filter,
              List.mem_cons, List.mem_singleton, List.not_mem_nil, or_false] at hf
            rcases hf.1 with rfl | rfl | rfl | rfl | rfl | rfl <;>
              simp [encodeValue, assembled, hT] at hname henc ⊢
            exact henc.symm
          · rintro rfl
            exact hmem
      · intro hne x
        obtain ⟨j, hj, hmem⟩ := hall.1 _ (accessToken_mem_kept _ hne)
        simp only [encodeValue, assembled, Option.some.injEq] at hj
        subst hj
        constructor
        · intro hx
          obtain ⟨f, hf, hname, henc⟩ := hall.2 _ hx
          simp only [DebugStruct.kept, DebugStruct.fields, List.mem_filter,
            List.mem_cons, List.mem_singleton, List.not_mem_nil, or_false] at hf
          rcases hf.1 with rfl | rfl | rfl | rfl | rfl | rfl <;>
            simp [encodeValue, assembled] at hname henc ⊢
          exact henc.symm
        · rintro rfl
          exact hmem
      · intro hempty x hx
        obtain ⟨f, hf, hname, henc⟩ := hall.2 _ hx
        simp only [DebugStruct.kept, DebugStruct.fields, List.mem_filter,
          List.mem_cons, List.mem_singleton, List.not_mem_nil, or_false] at hf
        rcases hf with ⟨rfl | rfl | rfl | rfl | rfl | rfl, hkeep⟩ <;>
          simp [assembled, isEmptyValue, hempty] at hname hkeep

/-- Witness for C7 amended, at the token "abc.def.ghi" whose access token does
not parse and which the validator rejects. -/
theorem token_fields_copied_witness :
    envParseFails.Token.1 = some exToken ∧
    (handler capturedReject exRequest envParseFails Interference.quiet
      exEncoders).o.AccessToken = utf8 "abc.def.ghi" ∧
    (handler capturedReject exRequest envParseFails Interference.quiet
      exEncoders).o.Expiry = 63835596800 :=
  ⟨rfl,
    (token_fields_copied capturedReject exRequest envParseFails Interference.quiet exEncoders
      exToken rfl).1,
    (token_fields_copied capturedReject exRequest envParseFails Interference.quiet exEncoders
      exToken rfl).2.1⟩

/-- C8, evaluated where it fails. The fields `RegisteredClaims`, `Claims` and
`Expiry` are kept by omitempty in every `DebugStruct`, because omitempty never
drops a field of struct kind; so whenever `json.Marshal` succeeds, the object has
the three members. In the run where the token has the zero expiry, its access
token does not parse and the validator rejects it, all three fields are at their
zero value and all three members are in the body. -/
theorem struct_fields_never_omitted :
    (∀ o : DebugStruct RC CL T,
      ("RegisteredClaims", GoValue.RegisteredClaims o.RegisteredClaims) ∈ o.kept ∧
      ("Claims", GoValue.Claims o.Claims) ∈ o.kept ∧
      ("Expiry", GoValue.Time o.Expiry) ∈ o.kept) ∧
    (∀ (enc : Encoders RC CL T J) (o : DebugStruct RC CL T) members,
      Marshal enc o = some members →
      (∃ j, ("RegisteredClaims", JSONValue.Encoded j) ∈ members) ∧
      (∃ j, ("Claims", JSONValue.Encoded j) ∈ members) ∧
      (∃ j, ("Expiry", JSONValue.Encoded j) ∈ members)) ∧
    (handler capturedReject exRequest envZeroExpiry Interference.quiet exEncoders).fault =
      none ∧
    (handler capturedReject exRequest envZeroExpiry Interference.quiet
      exEncoders).o.RegisteredClaims = "" ∧
    (handler capturedReject exRequest envZeroExpiry Interference.quiet exEncoders).o.Claims =
      "" ∧
    (handler capturedReject exRequest envZeroExpiry Interference.quiet exEncoders).o.Expiry =
      0 ∧
    (handler capturedReject exRequest envZeroExpiry Interference.quiet exEncoders).w.Body =
      [[("Errors", JSONValue.Strings
          [utf8 "error parsing token: malformed segments: abc.def.ghi",
           utf8 "error validating token: signature invalid: abc.def.ghi"]),
        ("RegisteredClaims", JSONValue.Encoded (ExampleJSON.claims "")),
        ("Claims", JSONValue.Encoded (ExampleJSON.claims "")),
        ("AccessToken", JSONValue.String (utf8 "abc.def.ghi")),
        ("Expiry", JSONValue.Encoded (ExampleJSON.time 0))]] := by
  refine ⟨struct_fields_mem_kept, ?_, by decide, by decide, by decide, by decide, by decide⟩
  intro enc o members hm
  have hall := mem_of_encodeFields enc _ members hm
  obtain ⟨j1, hj1, hm1⟩ := hall.1 _ (struct_fields_mem_kept o).1
  obtain ⟨j2, hj2, hm2⟩ := hall.1 _ (struct_fields_mem_kept o).2.1
  obtain ⟨j3, hj3, hm3⟩ := hall.1 _ (struct_fields_mem_kept o).2.2
  simp only [encodeValue, Option.map_eq_some'] at hj1 hj2 hj3
  obtain ⟨a1, -, rfl⟩ := hj1
  obtain ⟨a2, -, rfl⟩ := hj2
  obtain ⟨a3, -, rfl⟩ := hj3
  exact ⟨⟨a1, hm1⟩, ⟨a2, hm2⟩, ⟨a3, hm3⟩⟩

/-- C9. If the token source returns a nil token (with an error or without), the
handler panics at the field read of line 63: `fetchToken` ends in the fault
before the fetch error is appended and before the guard of line 71, so the local
`o` has no error recorded and the response writer is untouched. Moreover, on
every run that gets past line 69 the token pointer is non-nil, so the guard of
line 71 is never false. This holds whatever other invocations do to the shared
`err`. -/
theorem nil_token_read_faults (c : Captured Ctx VR) (r : Request Ctx)
    (env : Collaborators JWT VR RC CL T) (i : Interference) (enc : Encoders RC CL T J)
    (htok : env.Token.1 = none) :
    (fetchToken c env i).2 = .error (Fault.nilToken, DebugStruct.zero) ∧
    (handler c r env i enc).fault = some Fault.nilToken ∧
    (handler c r env i enc).o.Errors = [] ∧
    (handler c r env i enc).w = ResponseWriter.fresh ∧
    (∀ (c' : Captured Ctx VR) (env' : Collaborators JWT VR RC CL T) (i' : Interference)
        (s : Locals RC CL T),
      (fetchToken c' env' i').2 = .ok s → ∃ tok, s.token = some tok) := by
  refine ⟨?_, ?_, ?_, ?_, ?_⟩
  · rw [fetchToken_none c env i htok]
  · rw [handler_nil_token c r env i enc htok]
  · rw [handler_nil_token c r env i enc htok]
    rfl
  · rw [handler_nil_token c r env i enc htok]
  · intro c' env' i' s hs
    cases h : env'.Token.1 with
    | none =>
      rw [fetchToken_none c' env' i' h] at hs
      cases hs
    | some tok =>
      rw [fetchToken_some c' env' i' tok h] at hs
      simp only [Except.ok.injEq] at hs
      exact ⟨tok, by rw [← hs]⟩

/-- Witness for C9, where the token source returns a nil token together with
the error "metadata socket unavailable". -/
theorem nil_token_read_faults_witness :
    envNilToken.Token = (none, some (utf8 "metadata socket unavailable")) ∧
    (handler (FlyDebug constructOK) exRequest envNilToken Interference.quiet exEncoders).fault =
      some Fault.nilToken ∧
    (handler (FlyDebug constructOK) exRequest envNilToken Interference.quiet
      exEncoders).o.Errors = [] ∧
    (handler (FlyDebug constructOK) exRequest envNilToken Interference.quiet exEncoders).w =
      ResponseWriter.fresh :=
  ⟨rfl,
    (nil_token_read_faults (FlyDebug constructOK) exRequest envNilToken Interference.quiet
      exEncoders rfl).2.1,
    (nil_token_read_faults (FlyDebug constructOK) exRequest envNilToken Interference.quiet
      exEncoders rfl).2.2.1,
    (nil_token_read_faults (FlyDebug constructOK) exRequest envNilToken Interference.quiet
      exEncoders rfl).2.2.2.1⟩

/-- C10, evaluated where it fails. Every run leaves the captured validator as it
was, and a run that no other invocation interferes with overwrites the captured
`err` of line 50 with the error returned by the token source (the assignment of
line 61). After a successful construction the captured `err` is nil, and a
request whose token source returns a token together with the error "stale token"
leaves that error in it; after a failed construction, a request whose token
source returns a nil token replaces the construction error. -/
theorem captured_err_overwritten :
    (∀ (c : Captured Ctx VR) (r : Request Ctx) (env : Collaborators JWT VR RC CL T)
        (i : Interference) (enc : Encoders RC CL T J),
      (handler c r env i enc).captured.v = c.v ∧
      (handler c r env Interference.quiet enc).captured.err = env.Token.2) ∧
    (FlyDebug constructOK).err = none ∧
    (handler (FlyDebug constructOK) exRequest envTokenAndError Interference.quiet
      exEncoders).fault = none ∧
    (handler (FlyDebug constructOK) exRequest envTokenAndError Interference.quiet
      exEncoders).captured.err = some (utf8 "stale token") ∧
    (FlyDebug constructFails).err = some (utf8 "error creating validator: discovery failed") ∧
    (handler (FlyDebug constructFails) exRequest envNilToken Interference.quiet
      exEncoders).captured.err = some (utf8 "metadata socket unavailable") := by
  refine ⟨?_, by decide, by decide, by decide, by decide, by decide⟩
  intro c r env i enc
  cases h : env.Token.1 with
  | none =>
    rw [handler_nil_token c r env i enc h, handler_nil_token c r env _ enc h]
    exact ⟨rfl, rfl⟩
  | some tok =>
    rw [handler_token c r env i enc tok h, handler_token c r env _ enc tok h]
    exact ⟨rfl, errAfter_quiet _⟩

end Claims

end FlyDebugModel
